import Mathlib

/-!
Shallow embedding of the scene-graph UI core of `src/scene_graph_ui.cpp`
(class `GltfModelUI`): the glTF data it reads and mutates, the
selection / open-ancestor state machine, and the three detail editors
(node transform, material, light).

Modelling conventions:
* C++ `double`/`float` values are modelled by `ℚ`.  None of the verified
  properties depends on rounding, so the exact-arithmetic model is faithful
  for them.
* External mathematical collaborators that are not part of this repository
  (glm's matrix decomposition and Euler/quaternion conversions, the
  sRGB/linear conversions from `dh_tonemap.h`) are passed as function
  parameters: the code under verification only forwards values through them.
* ImGui widgets are modelled by their observable contract: a widget invocation
  either leaves its bound value untouched and reports `false`, or stores a new
  value and reports `true`.  An editor invocation is therefore parametrised by
  an "edits" record holding, per control, `none` (untouched) or `some v`
  (changed to `v`).
* The recursive DFS `markOpenNodes` is given explicit fuel; `none` models the
  C++ behaviour being undefined (unbounded recursion on a cyclic graph, or
  indexing `scenes[0]` of an empty scene list).
-/

namespace SceneGraphUI

abbrev Q := ℚ

/-- glm vec3 (components of translations, scales, colors). -/
structure Vec3 where
  x : Q
  y : Q
  z : Q
  deriving DecidableEq, Repr

/-- glm vec4 (base-color factors, perspective part of a decomposition). -/
structure Vec4 where
  x : Q
  y : Q
  z : Q
  w : Q
  deriving DecidableEq, Repr

/-- glm quat, stored in (x, y, z, w) component order as glTF does. -/
structure Quat where
  x : Q
  y : Q
  z : Q
  w : Q
  deriving DecidableEq, Repr

/-- glm::make_vec3: read three scalars from contiguous storage. -/
def makeVec3 (l : List Q) : Vec3 :=
  ⟨l.getD 0 0, l.getD 1 0, l.getD 2 0⟩

/-- glm::make_vec4: read four scalars from contiguous storage. -/
def makeVec4 (l : List Q) : Vec4 :=
  ⟨l.getD 0 0, l.getD 1 0, l.getD 2 0, l.getD 3 0⟩

/-- glm::make_quat: read x, y, z, w from contiguous storage. -/
def makeQuat (l : List Q) : Quat :=
  ⟨l.getD 0 0, l.getD 1 0, l.getD 2 0, l.getD 3 0⟩

def vec3List (v : Vec3) : List Q := [v.x, v.y, v.z]

def quatList (q : Quat) : List Q := [q.x, q.y, q.z, q.w]

/-- Result of glm::decompose on a 4x4 matrix: scale, rotation, translation,
skew and perspective, in the output-parameter order of the C++ call. -/
structure Decomposed where
  scale : Vec3
  rotation : Quat
  translation : Vec3
  skew : Vec3
  perspective : Vec4
  deriving DecidableEq, Repr

/-- The glm functions the transform editor forwards values through.  They are
external library code (not part of this repository), so they are parameters of
the embedding. `decompose` models `glm::decompose ∘ glm::make_mat4` on the 16
matrix entries; `eulerDegOfQuat` models `glm::degrees ∘ glm::eulerAngles`;
`quatOfEulerDeg` models `glm::quat ∘ glm::radians`. -/
structure GlmFuns where
  decompose : List Q → Decomposed
  eulerDegOfQuat : Quat → Vec3
  quatOfEulerDeg : Vec3 → Quat

/-- tinygltf::Node, restricted to the fields `scene_graph_ui.cpp` touches.
`visibilityExt` models the optional KHR_node_visibility extension entry
(`some b` when the extension is present with visible flag `b`). -/
structure GNode where
  name : String := ""
  children : List Int := []
  mesh : Int := -1
  light : Int := -1
  camera : Int := -1
  matrix : List Q := []
  translation : List Q := []
  rotation : List Q := []
  scale : List Q := []
  visibilityExt : Option Bool := none
  deriving DecidableEq, Repr

instance : Inhabited GNode := ⟨{}⟩

/-- tinygltf::Scene: a named list of root node indices. -/
structure GScene where
  name : String := ""
  nodes : List Int := []
  deriving DecidableEq, Repr

instance : Inhabited GScene := ⟨{}⟩

/-- tinygltf::Primitive, restricted to its material reference. -/
structure Primitive where
  material : Int := -1
  deriving DecidableEq, Repr

/-- tinygltf::Mesh, restricted to the fields the UI reads. -/
structure GMesh where
  name : String := ""
  primitives : List Primitive := []
  deriving DecidableEq, Repr

/-- tinygltf::Material, restricted to the fields `scene_graph_ui.cpp` touches.
Extension blocks (clearcoat, sheen, ...) are read and written only through the
external `tinygltf::utils` get/set pairs, so each block is modelled as an
opaque field vector stored under the extension's name. -/
structure Material where
  name : String := ""
  baseColorFactor : List Q := [1, 1, 1, 1]
  metallicFactor : Q := 1
  roughnessFactor : Q := 1
  emissiveFactor : List Q := [0, 0, 0]
  alphaMode : String := "OPAQUE"
  alphaCutoff : Q := 1/2
  doubleSided : Bool := false
  extensions : List (String × List Q) := []
  deriving DecidableEq, Repr

instance : Inhabited Material := ⟨{}⟩

/-- tinygltf spot-light parameters. -/
structure Spot where
  innerConeAngle : Q := 0
  outerConeAngle : Q := 1
  deriving DecidableEq, Repr

/-- tinygltf::Light, restricted to the fields `scene_graph_ui.cpp` touches.
`extras = none` models an extras Value that is not a JSON object;
`extras = some obj` models an object with the given numeric entries. -/
structure Light where
  name : String := ""
  color : List Q := [1, 1, 1]
  type : String := "directional"
  intensity : Q := 1
  spot : Spot := {}
  extras : Option (List (String × Q)) := none
  deriving DecidableEq, Repr

instance : Inhabited Light := ⟨{}⟩

/-- tinygltf::Model, restricted to the arrays the UI touches. -/
structure GModel where
  scenes : List GScene := []
  nodes : List GNode := []
  meshes : List GMesh := []
  materials : List Material := []
  lights : List Light := []
  deriving DecidableEq, Repr

/-- The selection-kind enum of `GltfModelUI` (`eNode`, `eMaterial`, `eLight`). -/
inductive SelType where
  | eNode
  | eMaterial
  | eLight
  deriving DecidableEq, Repr

/-- The UI-owned state of `GltfModelUI`: `m_selectType`, `m_selectedIndex`,
`m_openNodes` (an unordered_set, modelled as a duplicate-free list built by the
same insertions) and `m_doScroll`. -/
structure UIState where
  selectType : SelType
  selectedIndex : Int
  openNodes : List Int
  doScroll : Bool
  deriving DecidableEq, Repr

/-- The dirty-flag bitset `m_changes`; the four flags this file sets. -/
structure Changes where
  nodeTransformDirty : Bool := false
  nodeVisibleDirty : Bool := false
  materialDirty : Bool := false
  lightDirty : Bool := false
  deriving DecidableEq, Repr

/-- The spec's Selection abstraction of (`m_selectType`, `m_selectedIndex`):
a negative stored index means no selection (`renderDetails` only dispatches
when `m_selectedIndex > -1`). -/
inductive Selection where
  | none
  | node (i : Int)
  | material (i : Int)
  | light (i : Int)
  deriving DecidableEq, Repr

def uiSelection (st : UIState) : Selection :=
  if st.selectedIndex < 0 then Selection.none
  else
    match st.selectType with
    | SelType.eNode => Selection.node st.selectedIndex
    | SelType.eMaterial => Selection.material st.selectedIndex
    | SelType.eLight => Selection.light st.selectedIndex

/-- Array access `m_model.nodes[i]`; out-of-range access is undefined in the
C++ (§7 of the design: the document is trusted), modelled by a default node. -/
def nodeAt (nodes : List GNode) (i : Int) : GNode :=
  if 0 ≤ i then nodes.getD i.toNat default else default

/-- Value of an out-of-bounds read from a constant string array (undefined
behaviour in the C++). -/
def oobString : String := ""

/-- std::clamp(v, lo, hi). -/
def stdClamp (v lo hi : Int) : Int :=
  if v < lo then lo else if hi < v then hi else v

/-!
Selection and open-ancestor computation
(`GltfModelUI::markOpenNodes`, `preprocessOpenNodes`, `selectNode`, and the
click handlers of `renderNode`, `renderPrimitive`, `renderLight`).
-/

/-- The child loop of `GltfModelUI::markOpenNodes`: run `f` (the recursive
search) on each child in order; as soon as one search succeeds, stop.  The
returned list holds the node indices inserted into `m_openNodes` during the
loop, in insertion order. -/
def markChildrenWith (f : Int → Option (Bool × List Int)) : List Int → Option (Bool × List Int)
  | [] => some (false, [])
  | c :: cs =>
    match f c with
    | none => none
    | some (true, s) => some (true, s)
    | some (false, s) =>
      match markChildrenWith f cs with
      | none => none
      | some (b, s2) => some (b, s ++ s2)

/-- Models `GltfModelUI::markOpenNodes(nodeIndex, targetNodeIndex, openNodes)`:
depth-first search for the target; on the success path each node whose child
search succeeded is inserted into `m_openNodes`.  The result is
`some (found, inserted)`; `none` models fuel exhaustion (the C++ recursion is
unbounded on a cyclic graph). -/
def markOpenNodes (nodes : List GNode) : Nat → Int → Int → Option (Bool × List Int)
  | 0, _, _ => none
  | fuel + 1, nodeIndex, targetNodeIndex =>
    if nodeIndex = targetNodeIndex then some (true, [])
    else
      match markChildrenWith (fun c => markOpenNodes nodes fuel c targetNodeIndex)
          (nodeAt nodes nodeIndex).children with
      | none => none
      | some (true, s) => some (true, s ++ [nodeIndex])
      | some (false, s) => some (false, s)

/-- The root loop of `GltfModelUI::preprocessOpenNodes`: try each root of the
first scene in order and stop at the first root whose subtree contains the
target. -/
def markRootsLoop (nodes : List GNode) (fuel : Nat) (target : Int) : List Int → Option (List Int)
  | [] => some []
  | r :: rs =>
    match markOpenNodes nodes fuel r target with
    | none => none
    | some (true, s) => some s
    | some (false, s) =>
      match markRootsLoop nodes fuel target rs with
      | none => none
      | some s2 => some (s ++ s2)

/-- Models `GltfModelUI::preprocessOpenNodes()`: clear `m_openNodes`, return early
unless a node is selected, then search the roots of `m_model.scenes[0]` only.
`none` models the undefined `scenes[0]` access on an empty scene list, or fuel
exhaustion inside the search. -/
def preprocessOpenNodes (m : GModel) (st : UIState) (fuel : Nat) : Option (List Int) :=
  if st.selectedIndex < 0 ∨ st.selectType ≠ SelType.eNode then some []
  else
    match m.scenes with
    | [] => none
    | scene0 :: _ => markRootsLoop m.nodes fuel st.selectedIndex scene0.nodes

/-- Models `GltfModelUI::selectNode(nodeIndex)`: set the selection, clear
`m_openNodes`, recompute it when the index is non-negative, and raise the
one-shot scroll flag. -/
def selectNode (m : GModel) (st : UIState) (nodeIndex : Int) (fuel : Nat) : Option UIState :=
  let st1 : UIState :=
    { st with selectType := SelType.eNode, selectedIndex := nodeIndex, openNodes := [] }
  if 0 ≤ nodeIndex then
    match preprocessOpenNodes m st1 fuel with
    | none => none
    | some opens => some { st1 with openNodes := opens, doScroll := true }
  else some { st1 with doScroll := true }

/-- The click handler inside `GltfModelUI::renderNode` (the branch taken when
the row was clicked and the click was not an expand/collapse toggle). -/
def renderNodeClick (st : UIState) (nodeIndex : Int) : UIState :=
  { st with
    selectedIndex :=
      if st.selectType = SelType.eNode ∧ st.selectedIndex = nodeIndex then -1 else nodeIndex,
    selectType := SelType.eNode }

/-- The material index resolved by `GltfModelUI::renderPrimitive`:
`std::clamp(primitive.material, 0, int(materials.size() - 1))` (for an empty
material array the `size_t` subtraction wraps and the cast yields -1). -/
def primitiveMaterialID (m : GModel) (primitive : Primitive) : Int :=
  stdClamp primitive.material 0 ((m.materials.length : Int) - 1)

/-- The click handler inside `GltfModelUI::renderPrimitive` (the branch taken
when the Selectable row reports a click). -/
def renderPrimitiveClick (m : GModel) (st : UIState) (primitive : Primitive) : UIState :=
  { st with selectType := SelType.eMaterial, selectedIndex := primitiveMaterialID m primitive }

/-- The click handler inside `GltfModelUI::renderLight` (the branch taken when
the Selectable row reports a click). -/
def renderLightClick (st : UIState) (lightIndex : Int) : UIState :=
  { st with selectType := SelType.eLight, selectedIndex := lightIndex }

/-!
Detail editors.  Each ImGui control either leaves its bound value untouched
and reports no change (`none` in the edits record) or stores a new value and
reports a change (`some v`).
-/

/-- Models `GltfModelUI::getNodeTransform`: decompose a stored 16-element matrix,
discarding skew and perspective; otherwise read translation/rotation/scale
from their own storage when they have 3/4/3 elements, defaulting to zero
translation, identity rotation and unit scale. -/
def getNodeTransform (glm : GlmFuns) (node : GNode) : Vec3 × Quat × Vec3 :=
  let translation0 : Vec3 := ⟨0, 0, 0⟩
  let rotation0 : Quat := ⟨0, 0, 0, 1⟩
  let scale0 : Vec3 := ⟨1, 1, 1⟩
  if node.matrix.length = 16 then
    let d := glm.decompose node.matrix
    (d.translation, d.rotation, d.scale)
  else
    (if node.translation.length = 3 then makeVec3 node.translation else translation0,
     if node.rotation.length = 4 then makeQuat node.rotation else rotation0,
     if node.scale.length = 3 then makeVec3 node.scale else scale0)

/-- The per-control change reports of one `renderNodeDetails` invocation. -/
structure NodeEdits where
  translation : Option Vec3 := none
  rotationEuler : Option Vec3 := none
  scale : Option Vec3 := none
  visible : Option Bool := none
  addVisibility : Bool := false
  deriving DecidableEq, Repr

/-- Models `GltfModelUI::renderNodeDetails(nodeIndex)` acting on the selected node.
Returns the node after the invocation together with the two dirty signals
raised (`eNodeTransformDirty`, `eNodeVisibleDirty`). -/
def renderNodeDetails (glm : GlmFuns) (node : GNode) (e : NodeEdits) : GNode × Bool × Bool :=
  let hasVisibility := node.visibilityExt.isSome
  let trs := getNodeTransform glm node
  let translation := e.translation.getD trs.1
  let euler := e.rotationEuler.getD (glm.eulerDegOfQuat trs.2.1)
  let scale := e.scale.getD trs.2.2
  let modif := e.translation.isSome || e.rotationEuler.isSome || e.scale.isSome
  let node1 :=
    if modif then
      let rot := glm.quatOfEulerDeg euler
      { node with
        translation := vec3List translation,
        rotation := quatList rot,
        scale := vec3List scale,
        matrix := [] }
    else node
  if hasVisibility then
    match e.visible with
    | some v => ({ node1 with visibilityExt := some v }, modif, true)
    | none => (node1, modif, false)
  else if e.addVisibility then ({ node1 with visibilityExt := some true }, modif, false)
  else (node1, modif, false)

/-- The utility struct `MaterialUI` of `scene_graph_ui.cpp`. -/
structure MaterialUI where
  baseColorFactor : Vec4
  emissiveFactor : Vec3
  alphaMode : Nat
  deriving DecidableEq, Repr

def MaterialUI.alphaModes : List String := ["OPAQUE", "MASK", "BLEND"]

/-- Models `MaterialUI::toUI`. -/
def MaterialUI.toUI (material : Material) : MaterialUI :=
  { baseColorFactor := makeVec4 material.baseColorFactor,
    emissiveFactor := makeVec3 material.emissiveFactor,
    alphaMode :=
      if material.alphaMode = "OPAQUE" then 0
      else if material.alphaMode = "MASK" then 1
      else 2 }

/-- Models `MaterialUI::fromUI`. -/
def MaterialUI.fromUI (ui : MaterialUI) (material : Material) : Material :=
  { material with
    baseColorFactor :=
      [ui.baseColorFactor.x, ui.baseColorFactor.y, ui.baseColorFactor.z, ui.baseColorFactor.w],
    emissiveFactor := [ui.emissiveFactor.x, ui.emissiveFactor.y, ui.emissiveFactor.z],
    alphaMode := MaterialUI.alphaModes.getD ui.alphaMode oobString }

/-- tinygltf::utils::hasElementName on a material's extension map. -/
def hasElementName (exts : List (String × List Q)) (n : String) : Bool :=
  (exts.lookup n).isSome

/-- The `tinygltf::utils::set...` writers replace the named extension block. -/
def setExtension (exts : List (String × List Q)) (n : String) (v : List Q) :
    List (String × List Q) :=
  exts.map fun p => if p.1 = n then (n, v) else p

/-- The extension blocks `renderMaterial` offers, in the order of the code. -/
def materialExtensionNames : List String :=
  ["KHR_materials_emissive_strength", "KHR_materials_clearcoat", "KHR_materials_sheen",
   "KHR_materials_transmission", "KHR_materials_ior", "KHR_materials_specular",
   "KHR_materials_volume", "KHR_materials_anisotropy", "KHR_materials_iridescence",
   "KHR_materials_dispersion"]

/-- The per-control change reports of one `renderMaterial` invocation.
`extensionEdits` holds, per extension name, the edited block values. -/
structure MaterialEdits where
  baseColor : Option Vec4 := none
  metallic : Option Q := none
  roughness : Option Q := none
  emissive : Option Vec3 := none
  alphaCutoff : Option Q := none
  alphaMode : Option Nat := none
  doubleSided : Option Bool := none
  extensionEdits : List (String × List Q) := []
  deriving DecidableEq, Repr

/-- One extension section of `GltfModelUI::renderMaterial`: the block is
edited only when already present on the material; an edited block is written
back through its `tinygltf::utils` setter and raises `eMaterialDirty`. -/
def materialExtensionStep (e : MaterialEdits) (acc : Material × Bool) (n : String) :
    Material × Bool :=
  if hasElementName acc.1.extensions n then
    match e.extensionEdits.lookup n with
    | some v => ({ acc.1 with extensions := setExtension acc.1.extensions n v }, true)
    | none => acc
  else acc

/-- The sequence of extension sections of `GltfModelUI::renderMaterial`. -/
def renderMaterialExtensions (material : Material) (e : MaterialEdits) : Material × Bool :=
  materialExtensionNames.foldl (materialExtensionStep e) (material, false)

/-- Models `GltfModelUI::renderMaterial(materialIndex)` acting on the selected
material.  Metallic, roughness, alpha cutoff and double-sided are bound
directly to the persisted material; base color, emissive and alpha mode live
in the `MaterialUI` copy and are written back together when any base control
changed.  Returns the material after the invocation and the `eMaterialDirty`
signal. -/
def renderMaterial (material : Material) (e : MaterialEdits) : Material × Bool :=
  let ui := MaterialUI.toUI material
  let modif := e.baseColor.isSome || e.metallic.isSome || e.roughness.isSome ||
      e.emissive.isSome || e.alphaCutoff.isSome || e.alphaMode.isSome || e.doubleSided.isSome
  let ui :=
    { ui with
      baseColorFactor := e.baseColor.getD ui.baseColorFactor,
      emissiveFactor := e.emissive.getD ui.emissiveFactor,
      alphaMode := e.alphaMode.getD ui.alphaMode }
  let material :=
    { material with
      metallicFactor := e.metallic.getD material.metallicFactor,
      roughnessFactor := e.roughness.getD material.roughnessFactor,
      alphaCutoff := e.alphaCutoff.getD material.alphaCutoff,
      doubleSided := e.doubleSided.getD material.doubleSided }
  let material := if modif then MaterialUI.fromUI ui material else material
  let ext := renderMaterialExtensions material e
  (ext.1, modif || ext.2)

/-- The utility struct `LightUI` of `scene_graph_ui.cpp`. -/
structure LightUI where
  color : Vec3
  type : Nat
  innerAngle : Q
  outerAngle : Q
  intensity : Q
  radius : Q
  deriving DecidableEq, Repr

def LightUI.lightType : List String := ["point", "spot", "directional"]

def radiusKey : String := "radius"

/-- Models `LightUI::toUI`; `toSrgb` is the external color conversion of
`dh_tonemap.h`. -/
def LightUI.toUI (toSrgb : Vec3 → Vec3) (light : Light) : LightUI :=
  { color := toSrgb (makeVec3 light.color),
    type := if light.type = "point" then 0 else if light.type = "spot" then 1 else 2,
    intensity := light.intensity,
    innerAngle := light.spot.innerConeAngle,
    outerAngle := light.spot.outerConeAngle,
    radius :=
      match light.extras with
      | some obj => (obj.lookup radiusKey).getD 0
      | none => 0 }

/-- Store `extras["radius"] = v` in a JSON object. -/
def setKey (obj : List (String × Q)) (k : String) (v : Q) : List (String × Q) :=
  if (obj.lookup k).isSome then obj.map (fun p => if p.1 = k then (k, v) else p)
  else obj ++ [(k, v)]

/-- Models `LightUI::fromUI`; `toLinear` is the external color conversion of
`dh_tonemap.h`.  When the extras value is not an object it is replaced by an
empty object before the radius entry is stored. -/
def LightUI.fromUI (toLinear : Vec3 → Vec3) (ui : LightUI) (light : Light) : Light :=
  let linearColor := toLinear ui.color
  { light with
    color := vec3List linearColor,
    type := LightUI.lightType.getD ui.type oobString,
    intensity := ui.intensity,
    spot := { innerConeAngle := ui.innerAngle, outerConeAngle := ui.outerAngle },
    extras := some (setKey (light.extras.getD []) radiusKey ui.radius) }

/-- The per-control change reports of one `renderLightDetails` invocation. -/
structure LightEdits where
  type : Option Nat := none
  color : Option Vec3 := none
  intensity : Option Q := none
  innerAngle : Option Q := none
  outerAngle : Option Q := none
  radius : Option Q := none
  deriving DecidableEq, Repr

/-- Models `GltfModelUI::renderLightDetails(lightIndex)` acting on the selected
light.  Between the two cone-angle sliders the outer angle is raised to the
inner angle, and after the outer slider the inner angle is lowered to the
outer angle.  `LightUI::fromUI` is invoked unconditionally; only the
`eLightDirty` signal (the second component) is guarded by the change flag. -/
def renderLightDetails (toSrgb toLinear : Vec3 → Vec3) (light : Light) (e : LightEdits) :
    Light × Bool :=
  let ui := LightUI.toUI toSrgb light
  let ui := { ui with type := e.type.getD ui.type }
  let ui := { ui with color := e.color.getD ui.color }
  let ui := { ui with intensity := e.intensity.getD ui.intensity }
  let ui := { ui with innerAngle := e.innerAngle.getD ui.innerAngle }
  let ui := { ui with outerAngle := max ui.innerAngle ui.outerAngle }
  let ui := { ui with outerAngle := e.outerAngle.getD ui.outerAngle }
  let ui := { ui with innerAngle := min ui.innerAngle ui.outerAngle }
  let ui := { ui with radius := e.radius.getD ui.radius }
  let modif := e.type.isSome || e.color.isSome || e.intensity.isSome ||
      e.innerAngle.isSome || e.outerAngle.isSome || e.radius.isSome
  (LightUI.fromUI toLinear ui light, modif)

/-!
The whole core as a state machine: the scene document, the UI state and the
dirty-flag set together, with one step per user-visible operation of this
file.  Editors run on the entity their index selects and merge their dirty
signals into `m_changes` with `set` (which never clears a flag).
-/

structure AppState where
  model : GModel
  ui : UIState
  changes : Changes
  deriving Repr

/-- One user-visible operation of the scene-graph UI core. -/
inductive Op where
  | selectNode (idx : Int) (fuel : Nat)
  | clickNode (idx : Int)
  | clickPrimitive (p : Primitive)
  | clickLight (idx : Int)
  | editNode (idx : Nat) (e : NodeEdits)
  | editMaterial (idx : Nat) (e : MaterialEdits)
  | editLight (idx : Nat) (e : LightEdits)

/-- Apply one operation.  `none` only when the underlying search is undefined
(empty scene list or exhausted fuel). -/
def applyOp (glm : GlmFuns) (toSrgb toLinear : Vec3 → Vec3) (s : AppState) :
    Op → Option AppState
  | Op.selectNode idx fuel =>
    (selectNode s.model s.ui idx fuel).map fun ui2 => { s with ui := ui2 }
  | Op.clickNode idx => some { s with ui := renderNodeClick s.ui idx }
  | Op.clickPrimitive p => some { s with ui := renderPrimitiveClick s.model s.ui p }
  | Op.clickLight idx => some { s with ui := renderLightClick s.ui idx }
  | Op.editNode idx e =>
    let r := renderNodeDetails glm (s.model.nodes.getD idx default) e
    some
      { s with
        model := { s.model with nodes := s.model.nodes.set idx r.1 },
        changes :=
          { s.changes with
            nodeTransformDirty := s.changes.nodeTransformDirty || r.2.1,
            nodeVisibleDirty := s.changes.nodeVisibleDirty || r.2.2 } }
  | Op.editMaterial idx e =>
    let r := renderMaterial (s.model.materials.getD idx default) e
    some
      { s with
        model := { s.model with materials := s.model.materials.set idx r.1 },
        changes := { s.changes with materialDirty := s.changes.materialDirty || r.2 } }
  | Op.editLight idx e =>
    let r := renderLightDetails toSrgb toLinear (s.model.lights.getD idx default) e
    some
      { s with
        model := { s.model with lights := s.model.lights.set idx r.1 },
        changes := { s.changes with lightDirty := s.changes.lightDirty || r.2 } }

/-- Flag-set inclusion on the dirty bitset. -/
def Changes.Incl (a b : Changes) : Prop :=
  (a.nodeTransformDirty → b.nodeTransformDirty) ∧ (a.nodeVisibleDirty → b.nodeVisibleDirty) ∧
  (a.materialDirty → b.materialDirty) ∧ (a.lightDirty → b.lightDirty)

/-!
Specification-side notions used to state the claims: paths in the node graph,
reachability, and the roots of the first scene.
-/

/-- Predicate `PathTo nodes i t l`: `l` lists the nodes of a path from `i` to `t` in
document child order, excluding the target `t` itself (so `l = []` when
`i = t`). -/
inductive PathTo (nodes : List GNode) : Int → Int → List Int → Prop
  | refl (t : Int) : PathTo nodes t t []
  | step {i c t : Int} {l : List Int} :
      c ∈ (nodeAt nodes i).children → PathTo nodes c t l → PathTo nodes i t (i :: l)

/-- A target is reachable from `i` when some path leads to it. -/
def ReachableFrom (nodes : List GNode) (i t : Int) : Prop :=
  ∃ l, PathTo nodes i t l

/-- The root list of the first scene (the only scene
`preprocessOpenNodes` searches). -/
def firstSceneRoots (m : GModel) : List Int :=
  match m.scenes with
  | [] => []
  | scene0 :: _ => scene0.nodes

/-!
Lemmas about the depth-first search: a failed search inserts nothing, a
successful search inserts exactly one path (in reverse order), and a search
that completes without finding the target proves the target unreachable.
-/

lemma markChildrenWith_false_nil (f : Int → Option (Bool × List Int))
    (hf : ∀ c s, f c = some (false, s) → s = []) :
    ∀ cs s, markChildrenWith f cs = some (false, s) → s = [] := by
  intro cs
  induction cs with
  | nil =>
    intro s h
    simp [markChildrenWith] at h
    exact h
  | cons c cs ih =>
    intro s h
    simp only [markChildrenWith] at h
    cases hfc : f c with
    | none => rw [hfc] at h; simp at h
    | some bs =>
      obtain ⟨b, s1⟩ := bs
      cases b with
      | true => rw [hfc] at h; simp at h
      | false =>
        rw [hfc] at h
        cases hrec : markChildrenWith f cs with
        | none => rw [hrec] at h; simp at h
        | some bs2 =>
          obtain ⟨b2, s2⟩ := bs2
          rw [hrec] at h
          simp at h
          obtain ⟨hb2, hs⟩ := h
          rw [hb2] at hrec
          rw [← hs, hf c s1 hfc, ih s2 hrec]
          rfl

lemma markOpenNodes_false_nil (nodes : List GNode) :
    ∀ fuel i t s, markOpenNodes nodes fuel i t = some (false, s) → s = [] := by
  intro fuel
  induction fuel with
  | zero => intro i t s h; simp [markOpenNodes] at h
  | succ fuel ih =>
    intro i t s h
    by_cases hit : i = t
    · simp [markOpenNodes, hit] at h
    · simp only [markOpenNodes, if_neg hit] at h
      cases hmc : markChildrenWith (fun c => markOpenNodes nodes fuel c t)
          (nodeAt nodes i).children with
      | none => rw [hmc] at h; simp at h
      | some bs =>
        obtain ⟨b, s1⟩ := bs
        cases b with
        | true => rw [hmc] at h; simp at h
        | false =>
          rw [hmc] at h
          simp at h
          rw [← h]
          exact markChildrenWith_false_nil _ (fun c s hc => ih c t s hc) _ _ hmc

lemma markChildrenWith_true_path (nodes : List GNode) (t : Int)
    (f : Int → Option (Bool × List Int))
    (hfSound : ∀ c s, f c = some (true, s) → PathTo nodes c t s.reverse)
    (hfNil : ∀ c s, f c = some (false, s) → s = []) :
    ∀ cs s, markChildrenWith f cs = some (true, s) → ∃ c ∈ cs, PathTo nodes c t s.reverse := by
  intro cs
  induction cs with
  | nil => intro s h; simp [markChildrenWith] at h
  | cons c cs ih =>
    intro s h
    simp only [markChildrenWith] at h
    cases hfc : f c with
    | none => rw [hfc] at h; simp at h
    | some bs =>
      obtain ⟨b, s1⟩ := bs
      cases b with
      | true =>
        rw [hfc] at h
        simp at h
        exact ⟨c, List.mem_cons_self c cs, h ▸ hfSound c s1 hfc⟩
      | false =>
        rw [hfc] at h
        cases hrec : markChildrenWith f cs with
        | none => rw [hrec] at h; simp at h
        | some bs2 =>
          obtain ⟨b2, s2⟩ := bs2
          rw [hrec] at h
          simp at h
          obtain ⟨hb2, hs⟩ := h
          rw [hb2] at hrec
          obtain ⟨c2, hc2, hpath⟩ := ih s2 hrec
          refine ⟨c2, List.mem_cons_of_mem c hc2, ?_⟩
          rw [← hs, hfNil c s1 hfc]
          simpa using hpath

lemma markOpenNodes_sound (nodes : List GNode) :
    ∀ fuel i t s, markOpenNodes nodes fuel i t = some (true, s) → PathTo nodes i t s.reverse := by
  intro fuel
  induction fuel with
  | zero => intro i t s h; simp [markOpenNodes] at h
  | succ fuel ih =>
    intro i t s h
    by_cases hit : i = t
    · simp [markOpenNodes, hit] at h
      rw [h, List.reverse_nil, hit]
      exact PathTo.refl t
    · simp only [markOpenNodes, if_neg hit] at h
      cases hmc : markChildrenWith (fun c => markOpenNodes nodes fuel c t)
          (nodeAt nodes i).children with
      | none => rw [hmc] at h; simp at h
      | some bs =>
        obtain ⟨b, s1⟩ := bs
        cases b with
        | false => rw [hmc] at h; simp at h
        | true =>
          rw [hmc] at h
          simp at h
          obtain ⟨c, hc, hpath⟩ :=
            markChildrenWith_true_path nodes t _ (fun c s hc => ih c t s hc)
              (fun c s hc => markOpenNodes_false_nil nodes fuel c t s hc) _ _ hmc
          rw [← h]
          simpa using PathTo.step hc hpath

lemma markChildrenWith_complete (f : Int → Option (Bool × List Int)) (c : Int)
    (hfc : ∀ b s, f c = some (b, s) → b = true) :
    ∀ cs b s, c ∈ cs → markChildrenWith f cs = some (b, s) → b = true := by
  intro cs
  induction cs with
  | nil => intro b s hc; simp at hc
  | cons c0 cs ih =>
    intro b s hc h
    simp only [markChildrenWith] at h
    cases hfc0 : f c0 with
    | none => rw [hfc0] at h; simp at h
    | some bs =>
      obtain ⟨b0, s1⟩ := bs
      cases b0 with
      | true => rw [hfc0] at h; simp at h; exact h.1
      | false =>
        rcases List.mem_cons.mp hc with hceq | hcs
        · exact absurd (hfc false s1 (hceq ▸ hfc0)) (by simp)
        · rw [hfc0] at h
          cases hrec : markChildrenWith f cs with
          | none => rw [hrec] at h; simp at h
          | some bs2 =>
            obtain ⟨b2, s2⟩ := bs2
            rw [hrec] at h
            simp at h
            rw [← h.1]
            exact ih b2 s2 hcs hrec

lemma markOpenNodes_complete (nodes : List GNode) :
    ∀ fuel i t q b s, PathTo nodes i t q → markOpenNodes nodes fuel i t = some (b, s) →
      b = true := by
  intro fuel
  induction fuel with
  | zero => intro i t q b s _ h; simp [markOpenNodes] at h
  | succ fuel ih =>
    intro i t q b s hq h
    by_cases hit : i = t
    · simp [markOpenNodes, hit] at h
      exact h.1
    · simp only [markOpenNodes, if_neg hit] at h
      cases hq with
      | refl => exact absurd rfl hit
      | step hmem hpath =>
        rename_i c l
        cases hmc : markChildrenWith (fun c => markOpenNodes nodes fuel c t)
            (nodeAt nodes i).children with
        | none => rw [hmc] at h; simp at h
        | some bs =>
          obtain ⟨b1, s1⟩ := bs
          cases b1 with
          | true => rw [hmc] at h; simp at h; exact h.1
          | false =>
            have : False := by
              have := markChildrenWith_complete _ c
                (fun b s hb => ih c t l b s hpath hb) _ false s1 hmem hmc
              simp at this
            exact this.elim

lemma markRootsLoop_not_found (nodes : List GNode) (fuel : Nat) (t : Int) :
    ∀ roots s, (∀ r ∈ roots, ¬ ReachableFrom nodes r t) →
      markRootsLoop nodes fuel t roots = some s → s = [] := by
  intro roots
  induction roots with
  | nil => intro s _ h; simp [markRootsLoop] at h; exact h
  | cons r rs ih =>
    intro s hun h
    simp only [markRootsLoop] at h
    cases hm : markOpenNodes nodes fuel r t with
    | none => rw [hm] at h; simp at h
    | some bs =>
      obtain ⟨b, s1⟩ := bs
      cases b with
      | true =>
        exact absurd ⟨s1.reverse, markOpenNodes_sound nodes fuel r t s1 hm⟩
          (hun r (List.mem_cons_self r rs))
      | false =>
        rw [hm] at h
        cases hrec : markRootsLoop nodes fuel t rs with
        | none => rw [hrec] at h; simp at h
        | some s2 =>
          rw [hrec] at h
          simp at h
          rw [← h, markOpenNodes_false_nil nodes fuel r t s1 hm,
            ih s2 (fun x hx => hun x (List.mem_cons_of_mem r hx)) hrec]
          rfl

lemma markRootsLoop_unique (nodes : List GNode) (fuel : Nat) (t : Int) (p : List Int) :
    ∀ roots s r, markRootsLoop nodes fuel t roots = some s → r ∈ roots →
      PathTo nodes r t p → (∀ x ∈ roots, ∀ q, PathTo nodes x t q → q = p) →
      s = p.reverse := by
  intro roots
  induction roots with
  | nil => intro s r _ hr; simp at hr
  | cons r0 rs ih =>
    intro s r h hr hp huniq
    simp only [markRootsLoop] at h
    cases hm : markOpenNodes nodes fuel r0 t with
    | none => rw [hm] at h; simp at h
    | some bs =>
      obtain ⟨b, s1⟩ := bs
      cases b with
      | true =>
        rw [hm] at h
        simp at h
        have hpath := markOpenNodes_sound nodes fuel r0 t s1 hm
        have := huniq r0 (List.mem_cons_self r0 rs) s1.reverse hpath
        rw [← h, ← List.reverse_reverse s1, this]
      | false =>
        rcases List.mem_cons.mp hr with hreq | hrs
        · have := markOpenNodes_complete nodes fuel r0 t p false s1 (hreq ▸ hp) hm
          simp at this
        · rw [hm] at h
          cases hrec : markRootsLoop nodes fuel t rs with
          | none => rw [hrec] at h; simp at h
          | some s2 =>
            rw [hrec] at h
            simp at h
            rw [← h, markOpenNodes_false_nil nodes fuel r0 t s1 hm,
              ih s2 r hrec hrs hp (fun x hx => huniq x (List.mem_cons_of_mem r0 hx))]
            rfl

lemma pathTo_cons_inv {nodes : List GNode} {i t : Int} {q : List Int}
    (h : PathTo nodes i t q) (hne : i ≠ t) :
    ∃ c ∈ (nodeAt nodes i).children, ∃ l, q = i :: l ∧ PathTo nodes c t l := by
  cases h with
  | refl => exact absurd rfl hne
  | step hmem hp => exact ⟨_, hmem, _, rfl, hp⟩

lemma preprocessOpenNodes_pos (m : GModel) (st : UIState) (fuel : Nat)
    (hidx : 0 ≤ st.selectedIndex) (hty : st.selectType = SelType.eNode) :
    preprocessOpenNodes m st fuel =
      match m.scenes with
      | [] => none
      | scene0 :: _ => markRootsLoop m.nodes fuel st.selectedIndex scene0.nodes := by
  simp only [preprocessOpenNodes]
  rw [if_neg]
  push_neg
  exact ⟨hidx, hty⟩

/-- Unfolding of a successful `selectNode` with a non-negative index. -/
lemma selectNode_pos (m : GModel) (st : UIState) (idx : Int) (fuel : Nat) (st2 : UIState)
    (hidx : 0 ≤ idx) (h : selectNode m st idx fuel = some st2) :
    ∃ scene0 rest opens, m.scenes = scene0 :: rest ∧
      markRootsLoop m.nodes fuel idx scene0.nodes = some opens ∧
      st2 = { selectType := SelType.eNode, selectedIndex := idx,
              openNodes := opens, doScroll := true } := by
  simp only [selectNode] at h
  rw [if_pos hidx, preprocessOpenNodes_pos _ _ _ hidx rfl] at h
  dsimp only at h
  cases hsc : m.scenes with
  | nil => rw [hsc] at h; simp at h
  | cons scene0 rest =>
    rw [hsc] at h
    dsimp only at h
    cases hml : markRootsLoop m.nodes fuel idx scene0.nodes with
    | none => rw [hml] at h; simp at h
    | some opens =>
      rw [hml] at h
      simp at h
      exact ⟨scene0, rest, opens, rfl, hml, h.symm⟩

/-- Unfolding of `selectNode` with a negative index. -/
lemma selectNode_neg (m : GModel) (st : UIState) (idx : Int) (fuel : Nat) (st2 : UIState)
    (hidx : idx < 0) (h : selectNode m st idx fuel = some st2) :
    st2 = { selectType := SelType.eNode, selectedIndex := idx,
            openNodes := [], doScroll := true } := by
  simp only [selectNode] at h
  rw [if_neg (not_le.mpr hidx)] at h
  exact (Option.some.inj h).symm

/-!
Concrete instances used by witnesses and counterexamples.
-/

/-- A fresh UI state (nothing selected). -/
def initUI : UIState :=
  { selectType := SelType.eNode, selectedIndex := -1, openNodes := [], doScroll := false }

/-- A concrete choice for the external glm functions. -/
def glmTriv : GlmFuns :=
  { decompose := fun _ => ⟨⟨1, 1, 1⟩, ⟨0, 0, 0, 1⟩, ⟨0, 0, 0⟩, ⟨0, 0, 0⟩, ⟨0, 0, 0, 0⟩⟩,
    eulerDegOfQuat := fun _ => ⟨0, 0, 0⟩,
    quatOfEulerDeg := fun _ => ⟨0, 0, 0, 1⟩ }

/-- The spec's scenario model: one scene with two roots (node 3 and node 0
= A), A has child B (1), B has child C (2). -/
def mABC : GModel :=
  { scenes := [{ name := "scene", nodes := [3, 0] }],
    nodes := [{ name := "A", children := [1] }, { name := "B", children := [2] },
              { name := "C" }, { name := "D" }] }

/-- The state `selectNode(2)` produces on `mABC`. -/
def stABC : UIState :=
  { selectType := SelType.eNode, selectedIndex := 2, openNodes := [1, 0], doScroll := true }

/-- A document with two scenes; node 2 is reachable only from root 1 of the
second scene. -/
def mTwoScenes : GModel :=
  { scenes := [{ name := "s0", nodes := [0] }, { name := "s1", nodes := [1] }],
    nodes := [{ name := "r0" }, { name := "r1", children := [2] }, { name := "leaf" }] }

/-- A document holding exactly one material. -/
def mOneMaterial : GModel := { materials := [{}] }

/-- A node storing only a 16-element combined matrix. -/
def nodeMat16 : GNode := { matrix := List.replicate 16 0 }

/-- A transform edit touching only the translation. -/
def editT : NodeEdits := { translation := some ⟨1, 2, 3⟩ }

/-- A state already selecting Material 0. -/
def stMat0 : UIState :=
  { selectType := SelType.eMaterial, selectedIndex := 0, openNodes := [], doScroll := false }

/-- A state already selecting Light 1. -/
def stLight1 : UIState :=
  { selectType := SelType.eLight, selectedIndex := 1, openNodes := [], doScroll := false }

/-- The state `selectNode(2)` produces on `mTwoScenes`. -/
def stTwo : UIState :=
  { selectType := SelType.eNode, selectedIndex := 2, openNodes := [], doScroll := true }

lemma mABC_path : PathTo mABC.nodes 0 2 [0, 1] :=
  PathTo.step (c := 1) (by decide) (PathTo.step (c := 2) (by decide) (PathTo.refl 2))

lemma mABC_unique : ∀ x ∈ firstSceneRoots mABC, ∀ q, PathTo mABC.nodes x 2 q → q = [0, 1] := by
  intro x hx q hq
  have hx2 : x = 3 ∨ x = 0 := by
    simpa [firstSceneRoots, mABC] using hx
  rcases hx2 with rfl | rfl
  · obtain ⟨c, hc, l, -, -⟩ := pathTo_cons_inv hq (by decide)
    simp [mABC, nodeAt] at hc
  · obtain ⟨c, hc, l, hql, hpl⟩ := pathTo_cons_inv hq (by decide)
    have hc1 : c = 1 := by simpa [mABC, nodeAt] using hc
    subst hc1
    obtain ⟨c2, hc2, l2, hql2, hpl2⟩ := pathTo_cons_inv hpl (by decide)
    have hc22 : c2 = 2 := by simpa [mABC, nodeAt] using hc2
    subst hc22
    cases hpl2 with
    | refl => simp [hql, hql2]
    | step hmem _ => simp [mABC, nodeAt] at hmem

/-!
The claims.
-/

/-- C1 (counterexample): node 2 is reachable from scene root 1, which belongs
to the second scene of `mTwoScenes`; the unique root-to-target path is
`1 → 2`, so the claim demands Open-Ancestor Set `{1}`, yet after
`selectNode(2)` the set is empty. -/
theorem openAncestorSet_laterScene_counterexample :
    (selectNode mTwoScenes initUI 2 10).map UIState.openNodes = some [] ∧
    PathTo mTwoScenes.nodes 1 2 [1] ∧
    (1 : Int) ∈ (mTwoScenes.scenes.getD 1 default).nodes := by
  refine ⟨rfl, PathTo.step (c := 2) (by decide) (PathTo.refl 2), by decide⟩

/-- C1 (amended: the code searches only the FIRST scene's roots): for a target
reachable from a root of the first scene along a unique path, the
Open-Ancestor Set after `selectNode(target)` contains exactly the nodes of the
root-to-target path, excluding the target itself. -/
theorem openAncestorSet_eq_rootPath (m : GModel) (st : UIState) (t : Int) (fuel : Nat)
    (st2 : UIState) (r : Int) (p : List Int)
    (h : selectNode m st t fuel = some st2)
    (ht : 0 ≤ t)
    (hr : r ∈ firstSceneRoots m)
    (hp : PathTo m.nodes r t p)
    (huniq : ∀ x ∈ firstSceneRoots m, ∀ q, PathTo m.nodes x t q → q = p) :
    ∀ n, n ∈ st2.openNodes ↔ n ∈ p := by
  obtain ⟨scene0, rest, opens, hsc, hml, hst⟩ := selectNode_pos m st t fuel st2 ht h
  subst hst
  have hroots : firstSceneRoots m = scene0.nodes := by
    simp [firstSceneRoots, hsc]
  rw [hroots] at hr huniq
  have hopens := markRootsLoop_unique m.nodes fuel t p scene0.nodes opens r hml hr hp huniq
  intro n
  show n ∈ opens ↔ n ∈ p
  rw [hopens, List.mem_reverse]

/-- C1 (witness): on the spec's scenario model the amended theorem applies
with target 2 and path `[0, 1]`. -/
theorem openAncestorSet_eq_rootPath_witness :
    ((0 : Int) ∈ stABC.openNodes ↔ (0 : Int) ∈ [(0 : Int), 1]) :=
  openAncestorSet_eq_rootPath mABC initUI 2 10 stABC 0 [0, 1] (by rfl) (by decide)
    (by decide) mABC_path mABC_unique 0

/-- C3: a successful `selectNode(index)` sets the selection to (Node, index)
(None when index is negative), raises the one-shot scroll flag, clears the
Open-Ancestor Set, and for a non-negative index recomputes it by searching the
roots of the first scene only: the result is the root loop over
`scenes[0].nodes`, it is the same for any document sharing the node array and
the first scene's root list, and it is empty when the target is unreachable
from every first-scene root (in particular for a target belonging only to a
later scene). -/
theorem selectNode_contract (m : GModel) (st : UIState) (idx : Int) (fuel : Nat)
    (st2 : UIState) (h : selectNode m st idx fuel = some st2) :
    st2.selectType = SelType.eNode ∧
    st2.selectedIndex = idx ∧
    st2.doScroll = true ∧
    uiSelection st2 = (if idx < 0 then Selection.none else Selection.node idx) ∧
    (idx < 0 → st2.openNodes = []) ∧
    (0 ≤ idx → ∃ scene0 rest, m.scenes = scene0 :: rest ∧
      markRootsLoop m.nodes fuel idx scene0.nodes = some st2.openNodes) ∧
    (∀ m2 st0 st3, m2.nodes = m.nodes → firstSceneRoots m2 = firstSceneRoots m →
      selectNode m2 st0 idx fuel = some st3 → st3.openNodes = st2.openNodes) ∧
    (0 ≤ idx → (∀ r ∈ firstSceneRoots m, ¬ ReachableFrom m.nodes r idx) →
      st2.openNodes = []) := by
  by_cases hidx : 0 ≤ idx
  · obtain ⟨scene0, rest, opens, hsc, hml, hst⟩ := selectNode_pos m st idx fuel st2 hidx h
    have hroots : firstSceneRoots m = scene0.nodes := by
      simp [firstSceneRoots, hsc]
    subst hst
    refine ⟨rfl, rfl, rfl, ?_, ?_, ?_, ?_, ?_⟩
    · simp [uiSelection, not_lt.mpr hidx]
    · intro hlt; omega
    · intro _; exact ⟨scene0, rest, hsc, hml⟩
    · intro m2 st0 st3 hnodes hfirst h3
      obtain ⟨s02, r2, opens2, hsc2, hml2, hst3⟩ := selectNode_pos m2 st0 idx fuel st3 hidx h3
      have hroots2 : firstSceneRoots m2 = s02.nodes := by
        simp [firstSceneRoots, hsc2]
      rw [hroots2, hroots] at hfirst
      rw [hnodes, hfirst, hml] at hml2
      subst hst3
      show opens2 = opens
      exact (Option.some.inj hml2).symm
    · intro _ hun
      rw [hroots] at hun
      exact markRootsLoop_not_found m.nodes fuel idx scene0.nodes opens hun hml
  · have hlt : idx < 0 := not_le.mp hidx
    have hst := selectNode_neg m st idx fuel st2 hlt h
    subst hst
    refine ⟨rfl, rfl, rfl, ?_, fun _ => rfl, fun hge => absurd hge hidx, ?_, fun hge => absurd hge hidx⟩
    · simp [uiSelection, hlt]
    · intro m2 st0 st3 _ _ h3
      have hst3 := selectNode_neg m2 st0 idx fuel st3 hlt h3
      subst hst3
      rfl

/-- C3 (witness): the contract applied to the concrete document `mTwoScenes`
with target 2 (a node of the second scene only), where the Open-Ancestor Set
comes out empty. -/
theorem selectNode_contract_witness :
    stTwo.selectType = SelType.eNode ∧
    stTwo.selectedIndex = 2 ∧
    stTwo.doScroll = true ∧
    uiSelection stTwo = (if (2 : Int) < 0 then Selection.none else Selection.node 2) ∧
    ((2 : Int) < 0 → stTwo.openNodes = []) ∧
    ((0 : Int) ≤ 2 → ∃ scene0 rest, mTwoScenes.scenes = scene0 :: rest ∧
      markRootsLoop mTwoScenes.nodes 10 2 scene0.nodes = some stTwo.openNodes) ∧
    (∀ m2 st0 st3, m2.nodes = mTwoScenes.nodes →
      firstSceneRoots m2 = firstSceneRoots mTwoScenes →
      selectNode m2 st0 2 10 = some st3 → st3.openNodes = stTwo.openNodes) ∧
    ((0 : Int) ≤ 2 → (∀ r ∈ firstSceneRoots mTwoScenes, ¬ ReachableFrom mTwoScenes.nodes r 2) →
      stTwo.openNodes = []) :=
  selectNode_contract mTwoScenes initUI 2 10 stTwo (by rfl)

/-- C4: a node-row click that is not an expand/collapse toggle clears the
selection when the clicked node is already selected and selects it otherwise;
hence `selectNode(x)` followed by two clicks on x ends with Selection =
(Node, x). -/
theorem nodeClick_toggle :
    (∀ st i, uiSelection st = Selection.node i →
      uiSelection (renderNodeClick st i) = Selection.none) ∧
    (∀ st i, 0 ≤ i → uiSelection st ≠ Selection.node i →
      uiSelection (renderNodeClick st i) = Selection.node i) ∧
    (∀ m st x fuel st2, 0 ≤ x → selectNode m st x fuel = some st2 →
      uiSelection (renderNodeClick (renderNodeClick st2 x) x) = Selection.node x) := by
  have hsel : ∀ st i, uiSelection st = Selection.node i →
      st.selectType = SelType.eNode ∧ st.selectedIndex = i ∧ 0 ≤ i := by
    intro st i h
    unfold uiSelection at h
    split at h
    · cases h
    · rename_i hge
      cases hty : st.selectType <;> rw [hty] at h <;> cases h
      exact ⟨rfl, rfl, not_lt.mp hge⟩
  refine ⟨?_, ?_, ?_⟩
  · intro st i h
    obtain ⟨hty, hidx, hge⟩ := hsel st i h
    simp [renderNodeClick, uiSelection, hty, hidx]
  · intro st i hge hne
    by_cases hc : st.selectType = SelType.eNode ∧ st.selectedIndex = i
    · exact absurd (by simp [uiSelection, hc.1, hc.2, not_lt.mpr hge]) hne
    · simp [renderNodeClick, uiSelection, hc, not_lt.mpr hge]
  · intro m st x fuel st2 hx h
    obtain ⟨scene0, rest, opens, -, -, hst⟩ := selectNode_pos m st x fuel st2 hx h
    subst hst
    have hne : ¬((-1 : Int) = x) := by omega
    simp [renderNodeClick, uiSelection, hne, not_lt.mpr hx]

/-- C4 (witness): on the scenario document, select node 2 and click it twice;
the final selection is (Node, 2). -/
theorem nodeClick_toggle_witness :
    uiSelection (renderNodeClick (renderNodeClick stABC 2) 2) = Selection.node 2 :=
  nodeClick_toggle.2.2 mABC initUI 2 10 stABC (by decide) (by rfl)

/-- C5: after every light-editor invocation the persisted light satisfies
innerConeAngle ≤ outerConeAngle, whatever was edited: between the two sliders
the outer working angle is raised to max(inner, outer), and after the outer
slider the inner working angle is lowered to min(inner, outer), and the
working representation is always written back. -/
theorem lightEditor_cone_invariant (toSrgb toLinear : Vec3 → Vec3) (light : Light)
    (e : LightEdits) :
    ((renderLightDetails toSrgb toLinear light e).1.spot.innerConeAngle ≤
      (renderLightDetails toSrgb toLinear light e).1.spot.outerConeAngle) ∧
    (renderLightDetails toSrgb toLinear light e).1.spot.outerConeAngle =
      e.outerAngle.getD
        (max (e.innerAngle.getD light.spot.innerConeAngle) light.spot.outerConeAngle) ∧
    (renderLightDetails toSrgb toLinear light e).1.spot.innerConeAngle =
      min (e.innerAngle.getD light.spot.innerConeAngle)
        (e.outerAngle.getD
          (max (e.innerAngle.getD light.spot.innerConeAngle) light.spot.outerConeAngle)) := by
  refine ⟨?_, rfl, rfl⟩
  show min _ _ ≤ _
  exact min_le_right _ _

/-- C6: clicking a primitive resolves the selection to kind Material with
index clamp(m, 0, L-1) for any declared material index m, provided the
material array is non-empty. -/
theorem primitiveClick_clamp (m : GModel) (st : UIState) (p : Primitive)
    (hL : 0 < m.materials.length) :
    uiSelection (renderPrimitiveClick m st p) =
      Selection.material (stdClamp p.material 0 ((m.materials.length : Int) - 1)) := by
  have h0 : 0 ≤ stdClamp p.material 0 ((m.materials.length : Int) - 1) := by
    unfold stdClamp
    split_ifs <;> omega
  simp [renderPrimitiveClick, uiSelection, primitiveMaterialID, not_lt.mpr h0]

/-- C6 (witness): a primitive declaring out-of-range material index 5 on a
single-material document resolves to Material 0. -/
theorem primitiveClick_clamp_witness :
    0 < mOneMaterial.materials.length ∧
    uiSelection (renderPrimitiveClick mOneMaterial initUI ⟨5⟩) =
      Selection.material (stdClamp 5 0 ((mOneMaterial.materials.length : Int) - 1)) :=
  ⟨by decide, primitiveClick_clamp mOneMaterial initUI ⟨5⟩ (by decide)⟩

/-- C8: a transform edit that reports a change, on a node storing a
16-element matrix and no separate translation/rotation/scale, writes the
edited translation, the quaternion of the edited Euler angles, and the edited
scale into the decomposed fields and empties the stored matrix. -/
theorem transformEdit_clearsMatrix (glm : GlmFuns) (node : GNode) (e : NodeEdits)
    (hmat : node.matrix.length = 16)
    (htrs : node.translation = [] ∧ node.rotation = [] ∧ node.scale = [])
    (hfired : e.translation.isSome ∨ e.rotationEuler.isSome ∨ e.scale.isSome) :
    ((renderNodeDetails glm node e).1.matrix = []) ∧
    ((renderNodeDetails glm node e).1.translation =
      vec3List (e.translation.getD (getNodeTransform glm node).1)) ∧
    ((renderNodeDetails glm node e).1.rotation =
      quatList (glm.quatOfEulerDeg
        (e.rotationEuler.getD (glm.eulerDegOfQuat (getNodeTransform glm node).2.1)))) ∧
    ((renderNodeDetails glm node e).1.scale =
      vec3List (e.scale.getD (getNodeTransform glm node).2.2)) := by
  have hmod : (e.translation.isSome || e.rotationEuler.isSome || e.scale.isSome) = true := by
    rcases hfired with h | h | h <;> simp [h]
  rcases hev : e.visible with _ | v <;> rcases hav : e.addVisibility <;>
    rcases hhv : node.visibilityExt with _ | b <;>
    simp [renderNodeDetails, hmod, hev, hav, hhv]

/-- C8 (witness): the theorem applied to a matrix-only node with a concrete
translation edit. -/
theorem transformEdit_clearsMatrix_witness :
    ((renderNodeDetails glmTriv nodeMat16 editT).1.matrix = []) ∧
    ((renderNodeDetails glmTriv nodeMat16 editT).1.translation =
      vec3List (editT.translation.getD (getNodeTransform glmTriv nodeMat16).1)) ∧
    ((renderNodeDetails glmTriv nodeMat16 editT).1.rotation =
      quatList (glmTriv.quatOfEulerDeg
        (editT.rotationEuler.getD
          (glmTriv.eulerDegOfQuat (getNodeTransform glmTriv nodeMat16).2.1)))) ∧
    ((renderNodeDetails glmTriv nodeMat16 editT).1.scale =
      vec3List (editT.scale.getD (getNodeTransform glmTriv nodeMat16).2.2)) :=
  transformEdit_clearsMatrix glmTriv nodeMat16 editT (by decide) ⟨rfl, rfl, rfl⟩
    (Or.inl (by decide))

/-- C9: getNodeTransform decomposes exactly when the stored matrix has 16
elements (discarding skew and perspective); otherwise each of
translation/rotation/scale is read from its own storage exactly when it has
3/4/3 elements, and replaced by its identity default otherwise. -/
theorem getNodeTransform_spec (glm : GlmFuns) (node : GNode) :
    (node.matrix.length = 16 →
      getNodeTransform glm node =
        ((glm.decompose node.matrix).translation, (glm.decompose node.matrix).rotation,
          (glm.decompose node.matrix).scale)) ∧
    (node.matrix.length ≠ 16 →
      (node.translation.length = 3 →
        (getNodeTransform glm node).1 = makeVec3 node.translation) ∧
      (node.translation.length ≠ 3 → (getNodeTransform glm node).1 = ⟨0, 0, 0⟩) ∧
      (node.rotation.length = 4 →
        (getNodeTransform glm node).2.1 = makeQuat node.rotation) ∧
      (node.rotation.length ≠ 4 → (getNodeTransform glm node).2.1 = ⟨0, 0, 0, 1⟩) ∧
      (node.scale.length = 3 → (getNodeTransform glm node).2.2 = makeVec3 node.scale) ∧
      (node.scale.length ≠ 3 → (getNodeTransform glm node).2.2 = ⟨1, 1, 1⟩)) := by
  constructor
  · intro hm
    simp [getNodeTransform, hm]
  · intro hm
    refine ⟨?_, ?_, ?_, ?_, ?_, ?_⟩ <;> intro hx <;> simp [getNodeTransform, hm, hx]

/-- C9 (witness): the decomposition branch on a 16-element matrix and the
default branch on a node with empty transform storage. -/
theorem getNodeTransform_spec_witness :
    (getNodeTransform glmTriv nodeMat16 =
      ((glmTriv.decompose nodeMat16.matrix).translation,
       (glmTriv.decompose nodeMat16.matrix).rotation,
       (glmTriv.decompose nodeMat16.matrix).scale)) ∧
    ((getNodeTransform glmTriv { }).1 = (⟨0, 0, 0⟩ : Vec3)) :=
  ⟨(getNodeTransform_spec glmTriv nodeMat16).1 (by decide),
   ((getNodeTransform_spec glmTriv { }).2 (by decide)).2.1 (by decide)⟩

/-- C10: Selectable rows do not toggle: clicking a primitive whose resolved
material (or a light whose index) is already the current selection leaves the
UI state unchanged; the selection never becomes None on a repeated click. -/
theorem selectableClick_no_toggle :
    (∀ m st p, st.selectType = SelType.eMaterial →
      st.selectedIndex = primitiveMaterialID m p → renderPrimitiveClick m st p = st) ∧
    (∀ st i, st.selectType = SelType.eLight → st.selectedIndex = i →
      renderLightClick st i = st) := by
  constructor
  · intro m st p hty hsel
    obtain ⟨ty, sidx, op, sc⟩ := st
    dsimp at hty hsel
    subst hty
    subst hsel
    rfl
  · intro st i hty hsel
    obtain ⟨ty, sidx, op, sc⟩ := st
    dsimp at hty hsel
    subst hty
    subst hsel
    rfl

/-- C10 (witness): both parts applied on a state already selecting the
entity: primitive with declared index 5 resolved to Material 0, and light 1. -/
theorem selectableClick_no_toggle_witness :
    renderPrimitiveClick mOneMaterial stMat0 ⟨5⟩ = stMat0 ∧
    renderLightClick stLight1 1 = stLight1 :=
  ⟨selectableClick_no_toggle.1 mOneMaterial stMat0 ⟨5⟩ rfl (by decide),
   selectableClick_no_toggle.2 stLight1 1 rfl (by decide)⟩

/-!
Change-signal predicates on the edit records, and helper lemmas about the
editors' write-back and dirty behaviour.
-/

/-- No control of `renderMaterial` reported a change. -/
def MaterialEdits.silent (e : MaterialEdits) : Prop :=
  e.baseColor = none ∧ e.metallic = none ∧ e.roughness = none ∧ e.emissive = none ∧
  e.alphaCutoff = none ∧ e.alphaMode = none ∧ e.doubleSided = none ∧
  ∀ n, e.extensionEdits.lookup n = none

/-- Some control of the base (non-extension) group of `renderMaterial`
reported a change. -/
def MaterialEdits.baseFired (e : MaterialEdits) : Prop :=
  e.baseColor.isSome ∨ e.metallic.isSome ∨ e.roughness.isSome ∨ e.emissive.isSome ∨
  e.alphaCutoff.isSome ∨ e.alphaMode.isSome ∨ e.doubleSided.isSome

/-- No control of `renderNodeDetails` reported a change and the Add
Visibility button was not pressed. -/
def NodeEdits.silent (e : NodeEdits) : Prop :=
  e.translation = none ∧ e.rotationEuler = none ∧ e.scale = none ∧ e.visible = none ∧
  e.addVisibility = false

/-- Some control of `renderLightDetails` reported a change. -/
def LightEdits.fired (e : LightEdits) : Prop :=
  e.type.isSome ∨ e.color.isSome ∨ e.intensity.isSome ∨ e.innerAngle.isSome ∨
  e.outerAngle.isSome ∨ e.radius.isSome

lemma foldl_extensionStep_silent (e : MaterialEdits)
    (hx : ∀ n, e.extensionEdits.lookup n = none) :
    ∀ (names : List String) (acc : Material × Bool),
      names.foldl (materialExtensionStep e) acc = acc := by
  intro names
  induction names with
  | nil => intro acc; rfl
  | cons n ns ih =>
    intro acc
    rw [List.foldl_cons]
    have hstep : materialExtensionStep e acc n = acc := by
      unfold materialExtensionStep
      rw [hx n]
      split_ifs <;> rfl
    rw [hstep]
    exact ih acc

lemma foldl_extensionStep_preserves (e : MaterialEdits) :
    ∀ (names : List String) (acc : Material × Bool),
      (names.foldl (materialExtensionStep e) acc).1.baseColorFactor = acc.1.baseColorFactor ∧
      (names.foldl (materialExtensionStep e) acc).1.emissiveFactor = acc.1.emissiveFactor ∧
      (names.foldl (materialExtensionStep e) acc).1.alphaMode = acc.1.alphaMode := by
  intro names
  induction names with
  | nil => intro acc; exact ⟨rfl, rfl, rfl⟩
  | cons n ns ih =>
    intro acc
    rw [List.foldl_cons]
    have hstep : (materialExtensionStep e acc n).1.baseColorFactor = acc.1.baseColorFactor ∧
        (materialExtensionStep e acc n).1.emissiveFactor = acc.1.emissiveFactor ∧
        (materialExtensionStep e acc n).1.alphaMode = acc.1.alphaMode := by
      unfold materialExtensionStep
      split_ifs
      · cases e.extensionEdits.lookup n <;> exact ⟨rfl, rfl, rfl⟩
      · exact ⟨rfl, rfl, rfl⟩
    obtain ⟨h1, h2, h3⟩ := ih (materialExtensionStep e acc n)
    exact ⟨h1.trans hstep.1, h2.trans hstep.2.1, h3.trans hstep.2.2⟩

lemma renderMaterialExtensions_baseColor (mat : Material) (e : MaterialEdits) :
    (renderMaterialExtensions mat e).1.baseColorFactor = mat.baseColorFactor := by
  unfold renderMaterialExtensions
  exact (foldl_extensionStep_preserves e materialExtensionNames (mat, false)).1

lemma renderMaterialExtensions_emissive (mat : Material) (e : MaterialEdits) :
    (renderMaterialExtensions mat e).1.emissiveFactor = mat.emissiveFactor := by
  unfold renderMaterialExtensions
  exact (foldl_extensionStep_preserves e materialExtensionNames (mat, false)).2.1

lemma renderMaterialExtensions_alphaMode (mat : Material) (e : MaterialEdits) :
    (renderMaterialExtensions mat e).1.alphaMode = mat.alphaMode := by
  unfold renderMaterialExtensions
  exact (foldl_extensionStep_preserves e materialExtensionNames (mat, false)).2.2

lemma renderMaterial_silent (mat : Material) (e : MaterialEdits) (hs : e.silent) :
    renderMaterial mat e = (mat, false) := by
  obtain ⟨h1, h2, h3, h4, h5, h6, h7, hx⟩ := hs
  have hext := foldl_extensionStep_silent e hx materialExtensionNames (mat, false)
  simp [renderMaterial, h1, h2, h3, h4, h5, h6, h7, renderMaterialExtensions, hext]

lemma renderMaterial_dirty (mat : Material) (e : MaterialEdits) (hf : e.baseFired) :
    (renderMaterial mat e).2 = true := by
  rcases hf with h | h | h | h | h | h | h <;> simp [renderMaterial, h]

lemma renderMaterial_baseWriteback (mat : Material) (e : MaterialEdits) (hf : e.baseFired) :
    (renderMaterial mat e).1.baseColorFactor =
      [(e.baseColor.getD (MaterialUI.toUI mat).baseColorFactor).x,
       (e.baseColor.getD (MaterialUI.toUI mat).baseColorFactor).y,
       (e.baseColor.getD (MaterialUI.toUI mat).baseColorFactor).z,
       (e.baseColor.getD (MaterialUI.toUI mat).baseColorFactor).w] ∧
    (renderMaterial mat e).1.emissiveFactor =
      [(e.emissive.getD (MaterialUI.toUI mat).emissiveFactor).x,
       (e.emissive.getD (MaterialUI.toUI mat).emissiveFactor).y,
       (e.emissive.getD (MaterialUI.toUI mat).emissiveFactor).z] ∧
    (renderMaterial mat e).1.alphaMode =
      MaterialUI.alphaModes.getD (e.alphaMode.getD (MaterialUI.toUI mat).alphaMode) oobString := by
  have hmod : (e.baseColor.isSome || e.metallic.isSome || e.roughness.isSome ||
      e.emissive.isSome || e.alphaCutoff.isSome || e.alphaMode.isSome ||
      e.doubleSided.isSome) = true := by
    rcases hf with h | h | h | h | h | h | h <;> simp [h]
  refine ⟨?_, ?_, ?_⟩ <;>
    simp [renderMaterial, hmod, renderMaterialExtensions_baseColor,
      renderMaterialExtensions_emissive, renderMaterialExtensions_alphaMode,
      MaterialUI.fromUI]

lemma renderNodeDetails_silent (glm : GlmFuns) (node : GNode) (e : NodeEdits)
    (hs : e.silent) : renderNodeDetails glm node e = (node, false, false) := by
  obtain ⟨h1, h2, h3, h4, h5⟩ := hs
  by_cases hv : node.visibilityExt.isSome <;>
    simp [renderNodeDetails, h1, h2, h3, h4, h5, hv]

lemma renderNodeDetails_transformDirty (glm : GlmFuns) (node : GNode) (e : NodeEdits)
    (hf : e.translation.isSome ∨ e.rotationEuler.isSome ∨ e.scale.isSome) :
    (renderNodeDetails glm node e).2.1 = true := by
  have hmod : (e.translation.isSome || e.rotationEuler.isSome || e.scale.isSome) = true := by
    rcases hf with h | h | h <;> simp [h]
  rcases hev : e.visible with _ | v <;> rcases hav : e.addVisibility <;>
    rcases hhv : node.visibilityExt with _ | b <;>
    simp [renderNodeDetails, hmod, hev, hav, hhv]

lemma renderLightDetails_dirty_iff (toSrgb toLinear : Vec3 → Vec3) (light : Light)
    (e : LightEdits) :
    ((renderLightDetails toSrgb toLinear light e).2 = true ↔ e.fired) := by
  simp [renderLightDetails, LightEdits.fired, or_assoc]

/-- A concrete light whose extras value holds no radius entry. -/
def lightNoRadius : Light :=
  { name := "L", color := [1, 0, 0], type := "point", intensity := 5,
    spot := { innerConeAngle := 0, outerConeAngle := 1 }, extras := none }

/-- C2 (counterexample): one invocation of the light editor in which no
control reported a change (the dirty signal is false) still mutates the
persisted light: a radius extra appears on it. -/
theorem lightEditor_silent_writeback_counterexample :
    (renderLightDetails id id lightNoRadius {}).2 = false ∧
    (renderLightDetails id id lightNoRadius {}).1 ≠ lightNoRadius ∧
    (renderLightDetails id id lightNoRadius {}).1.extras = some [(radiusKey, 0)] := by
  refine ⟨rfl, by decide, rfl⟩

/-- C2 (amended): the transform and material editors write back and set their
dirty flag only when some control reported a change (and leave the entity
untouched otherwise), and on a base-group change the material editor writes
all fields of the working representation back in one write-back; the light
editor, by contrast, writes its working representation back unconditionally,
and only its dirty flag is governed by the change signal. -/
theorem detailEditor_writeback_contract :
    (∀ mat e, MaterialEdits.silent e → renderMaterial mat e = (mat, false)) ∧
    (∀ mat e, MaterialEdits.baseFired e →
      (renderMaterial mat e).2 = true ∧
      (renderMaterial mat e).1.baseColorFactor =
        [(e.baseColor.getD (MaterialUI.toUI mat).baseColorFactor).x,
         (e.baseColor.getD (MaterialUI.toUI mat).baseColorFactor).y,
         (e.baseColor.getD (MaterialUI.toUI mat).baseColorFactor).z,
         (e.baseColor.getD (MaterialUI.toUI mat).baseColorFactor).w] ∧
      (renderMaterial mat e).1.emissiveFactor =
        [(e.emissive.getD (MaterialUI.toUI mat).emissiveFactor).x,
         (e.emissive.getD (MaterialUI.toUI mat).emissiveFactor).y,
         (e.emissive.getD (MaterialUI.toUI mat).emissiveFactor).z] ∧
      (renderMaterial mat e).1.alphaMode =
        MaterialUI.alphaModes.getD (e.alphaMode.getD (MaterialUI.toUI mat).alphaMode) oobString) ∧
    (∀ glm node e, NodeEdits.silent e → renderNodeDetails glm node e = (node, false, false)) ∧
    (∀ glm node e, (e.translation.isSome ∨ e.rotationEuler.isSome ∨ e.scale.isSome) →
      (renderNodeDetails glm node e).2.1 = true) ∧
    (∀ toSrgb toLinear light e,
      ((renderLightDetails toSrgb toLinear light e).2 = true ↔ LightEdits.fired e)) := by
  refine ⟨?_, ?_, ?_, ?_, ?_⟩
  · exact renderMaterial_silent
  · intro mat e hf
    exact ⟨renderMaterial_dirty mat e hf, renderMaterial_baseWriteback mat e hf⟩
  · exact renderNodeDetails_silent
  · exact renderNodeDetails_transformDirty
  · exact renderLightDetails_dirty_iff

/-- A material edit touching only the directly-bound metallic factor. -/
def meWit : MaterialEdits := { metallic := some 1 }

/-- A light edit touching only the intensity slider. -/
def leWit : LightEdits := { intensity := some 2 }

/-- C2 (witness): the contract applied at concrete inputs: a silent material
invocation, a silent transform invocation, a fired material invocation and a
fired light invocation. -/
theorem detailEditor_writeback_contract_witness :
    renderMaterial { } { } = ({ }, false) ∧
    renderNodeDetails glmTriv { } { } = ({ }, false, false) ∧
    (renderMaterial { } meWit).2 = true ∧
    ((renderLightDetails id id lightNoRadius leWit).2 = true ↔ LightEdits.fired leWit) :=
  ⟨detailEditor_writeback_contract.1 { } { }
      ⟨rfl, rfl, rfl, rfl, rfl, rfl, rfl, fun _ => rfl⟩,
   detailEditor_writeback_contract.2.2.1 glmTriv { } { } ⟨rfl, rfl, rfl, rfl, rfl⟩,
   (detailEditor_writeback_contract.2.1 { } meWit (Or.inr (Or.inl (by decide)))).1,
   detailEditor_writeback_contract.2.2.2.2 id id lightNoRadius leWit⟩

/-- C7: no operation of the core ever clears a dirty flag — the raised flag
set grows monotonically under every operation — and editing a material (base
control) followed by editing a light leaves both the material-dirty and the
light-dirty flags set simultaneously. -/
theorem dirtyFlags_monotone :
    (∀ glm toSrgb toLinear s op s2, applyOp glm toSrgb toLinear s op = some s2 →
      s.changes.Incl s2.changes) ∧
    (∀ glm toSrgb toLinear s i me j le s1 s2,
      MaterialEdits.baseFired me → LightEdits.fired le →
      applyOp glm toSrgb toLinear s (Op.editMaterial i me) = some s1 →
      applyOp glm toSrgb toLinear s1 (Op.editLight j le) = some s2 →
      s2.changes.materialDirty = true ∧ s2.changes.lightDirty = true) := by
  have hlight : ∀ (toSrgb toLinear : Vec3 → Vec3) (l : Light) (e : LightEdits),
      LightEdits.fired e → (renderLightDetails toSrgb toLinear l e).2 = true := by
    intro toSrgb toLinear l e hf
    rcases hf with h | h | h | h | h | h <;> simp [renderLightDetails, h]
  constructor
  · intro glm toSrgb toLinear s op s2 h
    cases op with
    | selectNode idx fuel =>
      simp only [applyOp] at h
      obtain ⟨ui2, -, rfl⟩ := Option.map_eq_some'.mp h
      exact ⟨id, id, id, id⟩
    | clickNode idx =>
      simp only [applyOp] at h
      obtain rfl := Option.some.inj h
      exact ⟨id, id, id, id⟩
    | clickPrimitive p =>
      simp only [applyOp] at h
      obtain rfl := Option.some.inj h
      exact ⟨id, id, id, id⟩
    | clickLight idx =>
      simp only [applyOp] at h
      obtain rfl := Option.some.inj h
      exact ⟨id, id, id, id⟩
    | editNode idx e =>
      simp only [applyOp] at h
      obtain rfl := Option.some.inj h
      exact ⟨fun hh => by simp [hh], fun hh => by simp [hh], id, id⟩
    | editMaterial idx e =>
      simp only [applyOp] at h
      obtain rfl := Option.some.inj h
      exact ⟨id, id, fun hh => by simp [hh], id⟩
    | editLight idx e =>
      simp only [applyOp] at h
      obtain rfl := Option.some.inj h
      exact ⟨id, id, id, fun hh => by simp [hh]⟩
  · intro glm toSrgb toLinear s i me j le s1 s2 hBase hFired h1 h2
    simp only [applyOp] at h1 h2
    obtain rfl := Option.some.inj h1
    obtain rfl := Option.some.inj h2
    constructor
    · show (s.changes.materialDirty ||
        (renderMaterial (s.model.materials.getD i default) me).2) = true
      rw [renderMaterial_dirty _ me hBase]
      simp
    · show (_ || (renderLightDetails toSrgb toLinear _ le).2) = true
      rw [hlight toSrgb toLinear _ le hFired]
      simp

/-- A concrete application state with one material and one light, no flags
raised. -/
def appWit : AppState :=
  { model := { materials := [{}], lights := [{}] }, ui := initUI, changes := {} }

/-- The state after editing material 0 of `appWit` with `meWit`. -/
def appWit1 : AppState :=
  (applyOp glmTriv id id appWit (Op.editMaterial 0 meWit)).getD appWit

/-- The state after further editing light 0 with `leWit`. -/
def appWit2 : AppState :=
  (applyOp glmTriv id id appWit1 (Op.editLight 0 leWit)).getD appWit1

/-- C7 (witness): on a concrete document, editing material 0 (metallic) and
then light 0 (intensity) grows the flag set at the first step and leaves both
the material and light flags set after the second. -/
theorem dirtyFlags_monotone_witness :
    appWit.changes.Incl appWit1.changes ∧
    appWit2.changes.materialDirty = true ∧
    appWit2.changes.lightDirty = true :=
  ⟨dirtyFlags_monotone.1 glmTriv id id appWit (Op.editMaterial 0 meWit) appWit1 rfl,
   (dirtyFlags_monotone.2 glmTriv id id appWit 0 meWit 0 leWit appWit1 appWit2
      (Or.inr (Or.inl (by decide))) (Or.inr (Or.inr (Or.inl (by decide)))) rfl rfl).1,
   (dirtyFlags_monotone.2 glmTriv id id appWit 0 meWit 0 leWit appWit1 appWit2
      (Or.inr (Or.inl (by decide))) (Or.inr (Or.inr (Or.inl (by decide)))) rfl rfl).2⟩

end SceneGraphUI
